import Mathlib

/-
Verification of the inventory API server (src/apiserver.js).

The development shallowly embeds the JavaScript code: JS numbers are
modelled as `JsNum` (NaN, signed infinity, or a finite rational value),
JS values as `JsValue`, and the Node handlers as pure functions from the
persisted collection to a response together with the new collection.
String-to-number coercion (`parseFloat` and the implicit `ToNumber` used
by the global `isFinite`) is implemented over character lists following
the ECMAScript grammar for string numeric literals.
-/

namespace Spec2Proof

/-- JS number: NaN, a signed infinity, or a finite value.  Finite doubles
are modelled as rationals; none of the verified properties depend on
binary rounding. -/
inductive JsNum
  | nan
  | inf (pos : Bool)
  | fin (q : ℚ)
deriving DecidableEq, Repr

/-- Untyped JS value as it appears in a parsed JSON payload.  Objects are
collapsed to a single constructor: the handlers only ever coerce them
(truthy, `String(v)` is "[object Object]") and never inspect fields. -/
inductive JsValue
  | null
  | bool (b : Bool)
  | num (n : JsNum)
  | str (s : String)
  | arr (elems : List JsValue)
  | obj
deriving Repr

/-- JS truthiness of a value (`!v` in the source is `!(truthy v)`). -/
def truthy : JsValue → Bool
  | .null => false
  | .bool b => b
  | .num .nan => false
  | .num (.inf _) => true
  | .num (.fin q) => if q = 0 then false else true
  | .str s => if s = "" then false else true
  | .arr _ => true
  | .obj => true

/-- Truthiness of a possibly-absent (`undefined`) object property. -/
def optTruthy (o : Option JsValue) : Bool :=
  match o with
  | some v => truthy v
  | none => false

/-! ### ECMAScript string-to-number parsing -/

/-- Whitespace stripped by `parseFloat` and `ToNumber`. -/
def jsWs (c : Char) : Bool :=
  c = ' ' || c = '\t' || c = '\n' || c = '\r' || c = '\x0b' || c = '\x0c' ||
  c.toNat = 0xA0 || c.toNat = 0xFEFF || c.toNat = 0x2028 || c.toNat = 0x2029

/-- Strip leading and trailing JS whitespace from a character list. -/
def trimWs (cs : List Char) : List Char :=
  ((cs.dropWhile jsWs).reverse.dropWhile jsWs).reverse

/-- Value of a decimal digit character, if it is one. -/
def digitVal (c : Char) : Option ℕ :=
  if c.isDigit then some (c.toNat - 48) else none

/-- Take the longest run of decimal digits from the front of a list. -/
def takeDigits : List Char → List ℕ × List Char
  | [] => ([], [])
  | c :: cs =>
    match digitVal c with
    | some d =>
      let (ds, rest) := takeDigits cs
      (d :: ds, rest)
    | none => ([], c :: cs)

/-- Read a digit sequence as a natural number. -/
def digitsToNat (ds : List ℕ) : ℕ :=
  ds.foldl (fun a d => 10 * a + d) 0

/-- Strip an optional sign character, returning whether it was a minus. -/
def splitSign (cs : List Char) : Bool × List Char :=
  match cs with
  | c :: r =>
    if c = '+' then (false, r)
    else if c = '-' then (true, r)
    else (false, c :: r)
  | [] => (false, [])

/-- Recognise the literal word Infinity at the front of a list. -/
def startsWithInfinity (cs : List Char) : Option (List Char) :=
  if cs.take 8 = ['I', 'n', 'f', 'i', 'n', 'i', 't', 'y'] then some (cs.drop 8)
  else none

/-- Parse an optional exponent part; on a bare `e` with no digits nothing
is consumed, matching the longest-valid-literal rule of `parseFloat`. -/
def parseExponent (cs : List Char) : ℤ × List Char :=
  match cs with
  | c :: r1 =>
    if c = 'e' || c = 'E' then
      let (neg, r2) := splitSign r1
      let (ds, r3) := takeDigits r2
      if ds.isEmpty then (0, c :: r1)
      else (if neg then -(digitsToNat ds : ℤ) else (digitsToNat ds : ℤ), r3)
    else (0, c :: r1)
  | [] => (0, [])

/-- Parse an unsigned decimal literal (integer part, optional fraction,
optional exponent) from the front of a list. -/
def parseUnsigned (cs : List Char) : Option (ℚ × List Char) :=
  let (ip, r1) := takeDigits cs
  let (fp, r2) :=
    match r1 with
    | '.' :: cs2 => takeDigits cs2
    | _ => ([], r1)
  if ip.isEmpty && fp.isEmpty then none
  else
    let (ex, r3) := parseExponent r2
    some ((digitsToNat ip + (digitsToNat fp : ℚ) / 10 ^ fp.length) * (10 : ℚ) ^ ex, r3)

/-- Parse a signed decimal literal or signed Infinity from the front of a
list, returning the value and the unconsumed rest. -/
def strDecimal (cs : List Char) : Option (JsNum × List Char) :=
  let (neg, cs1) := splitSign cs
  match startsWithInfinity cs1 with
  | some rest => some (.inf !neg, rest)
  | none =>
    match parseUnsigned cs1 with
    | some (q, rest) => some (.fin (if neg then -q else q), rest)
    | none => none

/-- JS `parseFloat` on a string: longest valid prefix after stripping
whitespace, NaN when there is none.  (Stripping trailing whitespace too is
harmless: no valid literal contains whitespace.) -/
def parseFloatStr (s : String) : JsNum :=
  match strDecimal (trimWs s.data) with
  | some (v, _) => v
  | none => .nan

/-- Hex, octal or binary radix introducer at the front of a trimmed
string, as accepted by `ToNumber` (but not by `parseFloat`). -/
def radixStart : List Char → Option (ℕ × List Char)
  | c1 :: c2 :: rest =>
    if c1 = '0' then
      if c2 = 'x' || c2 = 'X' then some (16, rest)
      else if c2 = 'o' || c2 = 'O' then some (8, rest)
      else if c2 = 'b' || c2 = 'B' then some (2, rest)
      else none
    else none
  | _ => none

/-- Value of a hexadecimal digit character, if it is one. -/
def hexDigitVal (c : Char) : Option ℕ :=
  if c.isDigit then some (c.toNat - 48)
  else if 'a' ≤ c ∧ c ≤ 'f' then some (c.toNat - 87)
  else if 'A' ≤ c ∧ c ≤ 'F' then some (c.toNat - 55)
  else none

/-- Read a whole character list as digits in the given radix; `none` on an
empty list or any out-of-range character. -/
def parseRadixAll (radix : ℕ) (cs : List Char) : Option ℕ :=
  match cs with
  | [] => none
  | _ =>
    cs.foldl
      (fun acc c =>
        match acc, hexDigitVal c with
        | some a, some d => if d < radix then some (radix * a + d) else none
        | _, _ => none)
      (some 0)

/-- JS `ToNumber` on a string: the whole trimmed string must be a numeric
literal (decimal, Infinity, or a radix-prefixed integer); empty is 0. -/
def toNumberStr (s : String) : JsNum :=
  match trimWs s.data with
  | [] => .fin 0
  | cs =>
    match radixStart cs with
    | some (radix, ds) =>
      match parseRadixAll radix ds with
      | some n => .fin n
      | none => .nan
    | none =>
      match strDecimal cs with
      | some (v, []) => v
      | _ => .nan

/-! ### Coercion of whole values -/

/-- Decimal rendering of a digit sequence for a remainder-driven fraction;
fuel bounds the expansion (exact for terminating decimals, which covers
every value a double can take up to the rounding already abstracted). -/
def fracDigits : ℕ → ℕ → ℕ → String
  | 0, _, _ => ""
  | _, 0, _ => ""
  | fuel + 1, r, d =>
    let r10 := r * 10
    (Nat.digitChar (r10 / d)).toString ++ fracDigits fuel (r10 % d) d

/-- JS `String(n)` for a number. -/
def numToString : JsNum → String
  | .nan => "NaN"
  | .inf true => "Infinity"
  | .inf false => "-Infinity"
  | .fin q =>
    (if q < 0 then "-" else "") ++
      (if q.den = 1 then toString q.num.natAbs
       else toString (q.num.natAbs / q.den) ++ "." ++
         fracDigits 1200 (q.num.natAbs % q.den) q.den)

mutual

/-- JS `String(v)`. -/
def valToString : JsValue → String
  | .null => "null"
  | .bool b => if b then "true" else "false"
  | .num n => numToString n
  | .str s => s
  | .arr xs => arrJoin xs
  | .obj => "[object Object]"

/-- `Array.prototype.join(",")`, used by `String` on an array. -/
def arrJoin : List JsValue → String
  | [] => ""
  | [v] => elemToString v
  | v :: rest => elemToString v ++ "," ++ arrJoin rest

/-- A null (or undefined) array element prints as the empty string. -/
def elemToString : JsValue → String
  | .null => ""
  | v => valToString v

end

/-- JS `parseFloat(v)`: the argument is coerced to a string first.  For a
number argument the composite `parseFloat(String(n))` is the identity, so
that case is short-circuited. -/
def parseFloatVal : JsValue → JsNum
  | .null => parseFloatStr ("null")
  | .bool b => parseFloatStr (if b then "true" else "false")
  | .num n => n
  | .str s => parseFloatStr s
  | .arr xs => parseFloatStr (valToString (.arr xs))
  | .obj => parseFloatStr ("[object Object]")

/-- JS `ToNumber(v)`, as invoked by the global `isFinite`. -/
def toNumberVal : JsValue → JsNum
  | .null => .fin 0
  | .bool b => .fin (if b then 1 else 0)
  | .num n => n
  | .str s => toNumberStr s
  | .arr xs => toNumberStr (valToString (.arr xs))
  | .obj => toNumberStr ("[object Object]")

/-- `isNaN` on a number (the source applies it to a `parseFloat` result). -/
def jsIsNaN : JsNum → Bool
  | .nan => true
  | _ => false

/-- The global `isFinite(v)`: coerce with `ToNumber`, test finiteness. -/
def isFiniteVal (v : JsValue) : Bool :=
  match toNumberVal v with
  | .fin _ => true
  | _ => false

/-- ASCII lowering of one character; `toLowerCase` restricted to ASCII,
which is all the handlers compare against. -/
def jsCharToLower (c : Char) : Char :=
  if 'A' ≤ c ∧ c ≤ 'Z' then Char.ofNat (c.toNat + 32) else c

/-- JS `String.prototype.toLowerCase` (ASCII fragment). -/
def jsToLower (s : String) : String :=
  String.mk (s.data.map jsCharToLower)

/-! ### Data model -/

/-- A persisted inventory item, one element of the items.json array. The
`name` keeps whatever JS value the client sent; `price` is the number
stored by `parseFloat`; `size` is the stored (lowercased) string. -/
structure Item where
  id : String
  name : JsValue
  price : JsNum
  size : String
deriving Repr

/-- A parsed JSON request body, viewed through the three properties the
handlers read; a property absent from the JSON object is `none`
(JS `undefined`). -/
structure Payload where
  name : Option JsValue
  price : Option JsValue
  size : Option JsValue
deriving Repr

/-- The request body as the handlers see it after `JSON.parse`:
syntactically invalid JSON (`SyntaxError`), the JSON literal null (whose
property access throws a `TypeError`), or an object/primitive giving a
`Payload`. -/
inductive Body
  | malformed
  | parsedNull
  | parsed (p : Payload)

/-- Payload of the `data` field of the uniform response envelope. -/
inductive RespData
  | nullData
  | one (it : Item)
  | many (items : List Item)
deriving Repr

/-- The `{success, message, data}` envelope plus the HTTP status code
passed to `sendJsonResponse`. -/
structure Response where
  status : ℕ
  success : Bool
  message : String
  data : RespData
deriving Repr

/-- The valid size enumeration (`validSizes` in the source). -/
def validSizes : List String := ["s", "m", "l"]

/-- Message for a missing required create field. -/
def missingFieldsMsg : String :=
  "Missing required fields: name, price, and size are mandatory."

/-- Message echoing an out-of-enum size value. -/
def invalidSizeMsg (v : String) : String :=
  "Invalid size \x27" ++ v ++ "\x27. Must be \x27s\x27, \x27m\x27, or \x27l\x27."

/-- Message for a price failing the numeric check. -/
def priceMsg : String := "Price must be a valid number."

/-- Message for an unknown item id. -/
def notFoundMsg (itemId : String) : String :=
  "Item with ID " ++ itemId ++ " not found."

/-- Message for a body that is not valid JSON. -/
def badJsonMsg : String := "Invalid JSON format in request body."

/-- Catch-all 500 message of the create handler.  The source interpolates
the runtime TypeError text, which is engine specific; no verified claim
inspects it. -/
def internalCreateMsg : String := "Internal server error while creating item: TypeError"

/-- Catch-all 500 message of the update handler (same caveat). -/
def internalUpdateMsg : String := "Internal server error while updating item: TypeError"

/-! ### Handlers

Each handler is a pure function from the persisted collection to the
response and the new persisted collection; `writeItems` is the identity
on the returned collection and a branch that does not reach `writeItems`
returns the argument collection unchanged. -/

/-- GET /items. -/
def handleGetAllItems (items : List Item) : Response :=
  ⟨200, true, "Successfully retrieved all items.", .many items⟩

/-- GET /items/:id. -/
def handleGetOneItem (items : List Item) (itemId : String) : Response :=
  match items.find? (fun i => i.id == itemId) with
  | some it => ⟨200, true, "Successfully retrieved item.", .one it⟩
  | none => ⟨404, false, notFoundMsg itemId, .nullData⟩

/-- The price validation shared by create and update:
`isNaN(parseFloat(p)) || !isFinite(p)` on the payload's price property. -/
def priceBad (o : Option JsValue) : Bool :=
  match o with
  | some pv => jsIsNaN (parseFloatVal pv) || !isFiniteVal pv
  | none => false

/-- POST /items.  `uuid` stands for the `randomUUID()` drawn by this
request. -/
def handleCreateItem (uuid : String) (items : List Item) (body : Body) :
    Response × List Item :=
  match body with
  | .malformed =>
    (⟨400, false, badJsonMsg, .nullData⟩, items)
  | .parsedNull =>
    (⟨500, false, internalCreateMsg, .nullData⟩, items)
  | .parsed p =>
    if !(optTruthy p.name && optTruthy p.price && optTruthy p.size) then
      (⟨400, false, missingFieldsMsg, .nullData⟩, items)
    else
      match p.size with
      | some (.str s) =>
        if jsToLower s ∈ validSizes then
          if priceBad p.price then
            (⟨400, false, priceMsg, .nullData⟩, items)
          else
            let newItem : Item :=
              ⟨uuid, p.name.getD .null, parseFloatVal (p.price.getD .null), jsToLower s⟩
            (⟨201, true, "Item created successfully.", .one newItem⟩, items ++ [newItem])
        else
          (⟨400, false, invalidSizeMsg s, .nullData⟩, items)
      | _ =>
        -- a truthy non-string size: `.toLowerCase()` throws a TypeError,
        -- caught by the generic handler (the `none` case is unreachable
        -- past the truthiness check and also throws in JS)
        (⟨500, false, internalCreateMsg, .nullData⟩, items)

/-- Tail of the update handler after the in-memory field assignments and
the size validation: price validation, then persist and respond. -/
def updFinish (items : List Item) (idx : ℕ) (old : Item) (p : Payload)
    (newSize : String) : Response × List Item :=
  if priceBad p.price then
    (⟨400, false, priceMsg, .nullData⟩, items)
  else
    let newItem : Item :=
      ⟨old.id, p.name.getD old.name,
        (match p.price with
         | some pv => parseFloatVal pv
         | none => old.price),
        newSize⟩
    (⟨200, true, "Item updated successfully.", .one newItem⟩, items.set idx newItem)

/-- PUT /items/:id. -/
def handleUpdateItem (items : List Item) (itemId : String) (body : Body) :
    Response × List Item :=
  match body with
  | .malformed =>
    (⟨400, false, badJsonMsg, .nullData⟩, items)
  | .parsedNull =>
    -- JSON.parse succeeded with null; property access throws only after
    -- the index lookup established the item exists
    match items.findIdx? (fun i => i.id == itemId) with
    | some _ => (⟨500, false, internalUpdateMsg, .nullData⟩, items)
    | none => (⟨404, false, notFoundMsg itemId, .nullData⟩, items)
  | .parsed p =>
    match items.findIdx? (fun i => i.id == itemId) with
    | none => (⟨404, false, notFoundMsg itemId, .nullData⟩, items)
    | some idx =>
      match items[idx]? with
      | none => (⟨404, false, notFoundMsg itemId, .nullData⟩, items) -- unreachable
      | some old =>
        match p.size with
        | some (.str s) =>
          if jsToLower s ∈ validSizes then
            updFinish items idx old p (jsToLower s)
          else
            (⟨400, false, invalidSizeMsg s, .nullData⟩, items)
        | some _ =>
          -- provided non-string size: `.toLowerCase()` throws
          (⟨500, false, internalUpdateMsg, .nullData⟩, items)
        | none =>
          updFinish items idx old p old.size

/-- DELETE /items/:id. -/
def handleDeleteItem (items : List Item) (itemId : String) :
    Response × List Item :=
  let remaining := items.filter (fun i => !(i.id == itemId))
  if remaining.length < items.length then
    (⟨200, true, "Item deleted successfully.", .nullData⟩, remaining)
  else
    (⟨404, false, notFoundMsg itemId, .nullData⟩, items)

/-! ### Router -/

/-- An inbound HTTP request. -/
structure Request where
  method : String
  url : String
  body : Body

/-- `String.prototype.split` on the slash separator, over characters. -/
def splitSlashAux : List Char → List Char → List String
  | [], acc => [String.mk acc.reverse]
  | c :: rest, acc =>
    if c = '/' then String.mk acc.reverse :: splitSlashAux rest []
    else splitSlashAux rest (c :: acc)

/-- `req.url.split(\x27/\x27).filter(Boolean)`. -/
def urlParts (url : String) : List String :=
  (splitSlashAux url.data []).filter (fun s => !(s == ""))

/-- The request listener of the API server: routes on the first two
non-empty path segments and the method. -/
def apiServer (uuid : String) (items : List Item) (req : Request) :
    Response × List Item :=
  let parts := urlParts req.url
  let itemId? := parts[1]?
  if parts[0]? = some ("items") then
    if req.method = "GET" then
      match itemId? with
      | some itemId => (handleGetOneItem items itemId, items)
      | none => (handleGetAllItems items, items)
    else if req.method = "POST" ∧ itemId? = none then
      handleCreateItem uuid items req.body
    else if req.method = "PUT" ∧ itemId?.isSome then
      handleUpdateItem items (itemId?.getD ("")) req.body
    else if req.method = "DELETE" ∧ itemId?.isSome then
      handleDeleteItem items (itemId?.getD (""))
    else
      (⟨405, false, "Method Not Allowed or Invalid API Endpoint.", .nullData⟩, items)
  else
    (⟨404, false, "API Endpoint Not Found.", .nullData⟩, items)

/-! ### Operation sequences over the store -/

/-- One mutating API operation. -/
inductive Op
  | createOp (body : Body)
  | updateOp (itemId : String) (body : Body)
  | deleteOp (itemId : String)

/-- Apply one operation with the uuid drawn for it. -/
def applyOp (uuid : String) (items : List Item) : Op → Response × List Item
  | .createOp b => handleCreateItem uuid items b
  | .updateOp itemId b => handleUpdateItem items itemId b
  | .deleteOp itemId => handleDeleteItem items itemId

/-- Run a sequence of operations; `gen` supplies the uuid for the n-th
operation. -/
def runOps (gen : ℕ → String) : ℕ → List Item → List Op → List Item
  | _, items, [] => items
  | n, items, op :: rest => runOps gen (n + 1) (applyOp (gen n) items op).2 rest

/-! ### Disk-level model of the store (`readItems`)

The handler-level model above works on the typed collection; `readItems`
itself is modelled separately at the level of the raw document, because
its contract is about arbitrary on-disk states. -/

/-- A parsed JSON document. -/
inductive Json
  | null
  | bool (b : Bool)
  | num (n : JsNum)
  | str (s : String)
  | arr (xs : List Json)
  | obj (fields : List (String × Json))

/-- Classification of the items.json text by `JSON.parse`: empty string
(falsy `data`), text on which `JSON.parse` throws, or text parsing to a
JSON document. -/
inductive FileContent
  | emptyContent
  | invalidJson
  | validJson (j : Json)

/-- The on-disk state of items.json. -/
inductive DiskFile
  | absent
  | withContent (c : FileContent)

/-- `readItems()`: returns the loaded document and the disk state after
the call (an absent file is created holding the empty array).  Total: no
branch raises. -/
def readItems : DiskFile → Json × DiskFile
  | .absent => (.arr [], .withContent (.validJson (.arr [])))
  | .withContent .emptyContent => (.arr [], .withContent .emptyContent)
  | .withContent .invalidJson => (.arr [], .withContent .invalidJson)
  | .withContent (.validJson j) => (j, .withContent (.validJson j))

/-- Is a parsed document a JSON array? -/
def isJsonArray : Json → Bool
  | .arr _ => true
  | _ => false

/-- Is a file content parseable as a JSON array (the reading of claim C8's
premise)? -/
def parseableAsArray : FileContent → Prop
  | .validJson j => isJsonArray j = true
  | _ => False

/-! ### Derived predicates used by the claims -/

/-- The invariant the persisted collection actually maintains: non-empty
id, a finite (possibly negative) numeric price, and a size in the
enumeration. -/
def goodItem (it : Item) : Prop :=
  it.id ≠ "" ∧ (∃ q, it.price = .fin q) ∧ it.size ∈ validSizes

/-- The size value passes the create handler's enum check (a string whose
lowercasing is in the enumeration). -/
def sizeEnumOk (o : Option JsValue) : Bool :=
  match o with
  | some (.str s) => decide (jsToLower s ∈ validSizes)
  | _ => false

/-- The size value passes the update handler's check: absent, or a string
whose lowercasing is in the enumeration. -/
def updSizeOk (o : Option JsValue) : Bool :=
  match o with
  | none => true
  | some (.str s) => decide (jsToLower s ∈ validSizes)
  | some _ => false

/-- The create handler's full acceptance condition, read off its guard
chain: all three properties truthy, size a string lowercasing into the
enum, price passing the `parseFloat`/`isFinite` check. -/
def createAccept (p : Payload) : Bool :=
  (optTruthy p.name && optTruthy p.price && optTruthy p.size) &&
    sizeEnumOk p.size && !priceBad p.price

/-- The string carried by a size property known to be a string. -/
def sizeLit (o : Option JsValue) : String :=
  match o with
  | some (.str s) => s
  | _ => ""

/-- The item the create handler persists on acceptance. -/
def mkCreated (uuid : String) (p : Payload) : Item :=
  ⟨uuid, p.name.getD .null, parseFloatVal (p.price.getD .null), jsToLower (sizeLit p.size)⟩

/-- The item the update handler persists on acceptance: provided fields
replace, absent fields are retained, the id is kept. -/
def mergedItem (old : Item) (p : Payload) : Item :=
  ⟨old.id, p.name.getD old.name,
    (match p.price with
     | some pv => parseFloatVal pv
     | none => old.price),
    (match p.size with
     | some (.str s) => jsToLower s
     | _ => old.size)⟩

/-- Name property of a request body, `none` when not a parsed object. -/
def bodyName : Body → Option JsValue
  | .parsed p => p.name
  | _ => none

/-- Price property of a request body. -/
def bodyPrice : Body → Option JsValue
  | .parsed p => p.price
  | _ => none

/-- Size property of a request body. -/
def bodySize : Body → Option JsValue
  | .parsed p => p.size
  | _ => none

/-! ### Formalisations of claim statements that the code refutes -/

/-- Claim C1 as stated: after any operation sequence from empty, every
persisted item has a non-empty id, a non-negative numeric price, and an
in-enum size. -/
def claimC1 : Prop :=
  ∀ gen : ℕ → String, (∀ n, gen n ≠ "") →
    ∀ ops : List Op, ∀ it ∈ runOps gen 0 [] ops,
      it.id ≠ "" ∧ (∃ q, it.price = .fin q ∧ 0 ≤ q) ∧ it.size ∈ validSizes

/-- Name rule as the spec words it: present and non-empty. -/
def specNameOk (o : Option JsValue) : Prop :=
  match o with
  | some (.str s) => s ≠ ""
  | _ => False

/-- Price rule as the spec words it: present and parseable as a finite
non-negative number. -/
def specPriceOk (o : Option JsValue) : Prop :=
  match o with
  | some v => ∃ q, parseFloatVal v = .fin q ∧ 0 ≤ q
  | none => False

/-- Size rule as the spec words it: present and, case-insensitively, in
the enumeration. -/
def specSizeOk (o : Option JsValue) : Prop :=
  match o with
  | some (.str s) => jsToLower s ∈ validSizes
  | _ => False

/-- Claim C2 as stated: create accepts (201) exactly the payloads passing
the spec's validation rule. -/
def claimC2 : Prop :=
  ∀ uuid items p,
    (handleCreateItem uuid items (.parsed p)).1.status = 201 ↔
      (specNameOk p.name ∧ specPriceOk p.price ∧ specSizeOk p.size)

/-- Claim C3, specialised to the part the code refutes: an update payload
with an empty-string name is rejected with a 400. -/
def claimC3 : Prop :=
  ∀ items itemId p, (∃ it ∈ items, it.id = itemId) →
    p.name = some (.str "") →
    (handleUpdateItem items itemId (.parsed p)).1.status = 400

/-- A size value outside the enumeration (any non-string counts as
outside, as claim C4 includes wrong-type values). -/
def sizeOutOfEnum (v : JsValue) : Prop :=
  match v with
  | .str s => ¬ jsToLower s ∈ validSizes
  | _ => True

/-- Claim C4, specialised to the part the code refutes: an out-of-enum
size on create always yields status 400 (in particular never 500). -/
def claimC4 : Prop :=
  ∀ uuid items p v, p.size = some v → sizeOutOfEnum v →
    (handleCreateItem uuid items (.parsed p)).1.status = 400

/-- Claim C8 as stated, for the present-but-not-an-array case: load
returns the empty collection. -/
def claimC8 : Prop :=
  ∀ c : FileContent, ¬ parseableAsArray c →
    (readItems (.withContent c)).1 = .arr []

/-- Is this URL under /items (the wording of claim C9)? -/
def underItems (url : String) : Bool :=
  url == "/items" || url.data.take 7 == ("/items/").data

/-- The id segment of a /items/{id} URL. -/
def urlIdPart (url : String) : String :=
  String.mk (url.data.drop 7)

/-- Is this method/path one of the five recognized operations of claim
C9 (GET /items, GET /items/{id}, POST /items, PUT /items/{id},
DELETE /items/{id}, with {id} a non-empty slash-free segment)? -/
def recognizedOp (method url : String) : Bool :=
  (method == "GET" && url == "/items") ||
  (method == "POST" && url == "/items") ||
  ((method == "GET" || method == "PUT" || method == "DELETE") &&
    url.data.take 7 == ("/items/").data &&
    !(urlIdPart url == "") && !(urlIdPart url).data.contains '/')

/-- Claim C9 as stated: under /items an unrecognized combination gives
405, outside /items everything gives 404. -/
def claimC9 : Prop :=
  ∀ (uuid : String) (items : List Item) (req : Request),
    (underItems req.url = true → recognizedOp req.method req.url = false →
      (apiServer uuid items req).1.status = 405) ∧
    (underItems req.url = false →
      (apiServer uuid items req).1.status = 404)

/-- The method/second-segment shapes the router dispatches to a handler. -/
def shapeHandled (method : String) (hasId : Bool) : Prop :=
  method = "GET" ∨ (method = "POST" ∧ hasId = false) ∨
    (method = "PUT" ∧ hasId = true) ∨ (method = "DELETE" ∧ hasId = true)

/-! ### Lemmas about string-to-number parsing -/

/-- A successful radix introducer pins down the first two characters. -/
theorem radixStart_shape (cs : List Char) (pr : ℕ × List Char)
    (h : radixStart cs = some pr) : ∃ c2 rest, cs = '0' :: c2 :: rest := by
  match cs with
  | [] =>
    rw [show radixStart [] = none from rfl] at h
    exact Option.noConfusion h
  | [c] =>
    rw [show radixStart [c] = none from rfl] at h
    exact Option.noConfusion h
  | c1 :: c2 :: rest =>
    refine ⟨c2, rest, ?_⟩
    by_cases h0 : c1 = '0'
    · rw [h0]
    · simp [radixStart, h0] at h

/-- `strDecimal` only returns an infinity when the Infinity literal is
present right after the optional sign. -/
theorem strDecimal_inf (cs : List Char) (b : Bool) (r : List Char)
    (h : strDecimal cs = some (.inf b, r)) :
    ∃ rest, startsWithInfinity (splitSign cs).2 = some rest := by
  simp only [strDecimal] at h
  rcases hsp : splitSign cs with ⟨neg, cs1⟩
  rw [hsp] at h
  cases hsw : startsWithInfinity cs1 with
  | some rest => exact ⟨rest, rfl⟩
  | none =>
    rw [hsw] at h
    cases hpu : parseUnsigned cs1 with
    | none => rw [hpu] at h; simp at h
    | some qr =>
      obtain ⟨q, r'⟩ := qr
      rw [hpu] at h
      simp at h

/-- A string whose `ToNumber` is finite cannot `parseFloat` to an
infinity: both readings share the same decimal scanner. -/
theorem parseFloat_not_inf (s : String) (q : ℚ) (b : Bool)
    (hn : toNumberStr s = .fin q) : parseFloatStr s ≠ .inf b := by
  intro hpf
  cases hsd : strDecimal (trimWs s.data) with
  | none =>
    simp only [parseFloatStr, hsd] at hpf
    exact JsNum.noConfusion hpf
  | some vr =>
    obtain ⟨v, r⟩ := vr
    simp only [parseFloatStr, hsd] at hpf
    subst hpf
    cases hcs : trimWs s.data with
    | nil =>
      rw [hcs] at hsd
      rw [show strDecimal [] = none from rfl] at hsd
      exact Option.noConfusion hsd
    | cons c cs' =>
      rw [hcs] at hsd
      simp only [toNumberStr, hcs] at hn
      cases hrs : radixStart (c :: cs') with
      | some p =>
        obtain ⟨c2, rest, hshape⟩ := radixStart_shape _ _ hrs
        rw [hshape] at hsd
        obtain ⟨rest', hswi⟩ := strDecimal_inf _ _ _ hsd
        rw [show splitSign ('0' :: c2 :: rest) = (false, '0' :: c2 :: rest) from rfl] at hswi
        rw [show startsWithInfinity ('0' :: c2 :: rest) = none from rfl] at hswi
        exact Option.noConfusion hswi
      | none =>
        rw [hrs] at hn
        rw [hsd] at hn
        cases r with
        | nil => simp at hn
        | cons x xs => simp at hn

/-- Extract the finite `ToNumber` value from a passed `isFinite` check on
a string-coerced argument. -/
theorem toNumber_fin_of_check (s : String)
    (h : (match toNumberStr s with
          | .fin _ => true
          | _ => false) = true) :
    ∃ q, toNumberStr s = .fin q := by
  cases htn : toNumberStr s with
  | fin q => exact ⟨q, rfl⟩
  | nan => rw [htn] at h; simp at h
  | inf b => rw [htn] at h; simp at h

/-- A price that passes `isNaN(parseFloat(p)) || !isFinite(p)` has a
finite `parseFloat` value.  This is the key fact behind the (amended)
store invariant: persisted prices are finite numbers. -/
theorem parseFloatVal_fin (v : JsValue)
    (h1 : jsIsNaN (parseFloatVal v) = false)
    (h2 : isFiniteVal v = true) :
    ∃ q, parseFloatVal v = .fin q := by
  cases hpf : parseFloatVal v with
  | fin q => exact ⟨q, rfl⟩
  | nan => rw [hpf] at h1; simp [jsIsNaN] at h1
  | inf b =>
    exfalso
    cases v with
    | null =>
      rw [show parseFloatVal .null = .nan from by decide] at hpf
      exact JsNum.noConfusion hpf
    | bool bb =>
      cases bb
      · rw [show parseFloatVal (.bool false) = .nan from by decide] at hpf
        exact JsNum.noConfusion hpf
      · rw [show parseFloatVal (.bool true) = .nan from by decide] at hpf
        exact JsNum.noConfusion hpf
    | obj =>
      rw [show parseFloatVal .obj = .nan from by decide] at hpf
      exact JsNum.noConfusion hpf
    | num n =>
      simp only [parseFloatVal] at hpf
      rw [hpf] at h2
      simp [isFiniteVal, toNumberVal] at h2
    | str s =>
      simp only [isFiniteVal, toNumberVal] at h2
      obtain ⟨q, hq⟩ := toNumber_fin_of_check _ h2
      simp only [parseFloatVal] at hpf
      exact parseFloat_not_inf _ _ _ hq hpf
    | arr xs =>
      simp only [isFiniteVal, toNumberVal] at h2
      obtain ⟨q, hq⟩ := toNumber_fin_of_check _ h2
      simp only [parseFloatVal] at hpf
      exact parseFloat_not_inf _ _ _ hq hpf

/-! ### Preservation of the store invariant by each handler -/

/-- A truthy property is present. -/
theorem optTruthy_some (o : Option JsValue) (h : optTruthy o = true) :
    ∃ v, o = some v ∧ truthy v = true := by
  cases o with
  | none => simp [optTruthy] at h
  | some v => exact ⟨v, rfl, h⟩

/-- A present price that passes the shared price check parses to a finite
number. -/
theorem priceBad_false (pv : JsValue) (h : priceBad (some pv) = false) :
    ∃ q, parseFloatVal pv = .fin q := by
  simp only [priceBad, Bool.or_eq_false_iff] at h
  exact parseFloatVal_fin pv h.1 (by simpa using h.2)

/-- Create only ever appends an item with the fresh id, a finite price
and an in-enum size. -/
theorem handleCreateItem_good (uuid : String) (items : List Item) (body : Body)
    (hgood : ∀ it ∈ items, goodItem it) (huuid : uuid ≠ "") :
    ∀ it ∈ (handleCreateItem uuid items body).2, goodItem it := by
  cases body with
  | malformed => simpa [handleCreateItem] using hgood
  | parsedNull => simpa [handleCreateItem] using hgood
  | parsed p =>
    obtain ⟨pn, pp, ps⟩ := p
    cases hT : (optTruthy pn && optTruthy pp && optTruthy ps) with
    | false => simpa [handleCreateItem, hT] using hgood
    | true =>
      have hpp : optTruthy pp = true :=
        (Bool.and_eq_true_iff.mp (Bool.and_eq_true_iff.mp hT).1).2
      have hts : optTruthy ps = true := (Bool.and_eq_true_iff.mp hT).2
      obtain ⟨vs, hvs, htvs⟩ := optTruthy_some _ hts
      subst hvs
      cases vs with
      | null => simpa [handleCreateItem, hT] using hgood
      | bool bb => simpa [handleCreateItem, hT] using hgood
      | num n => simpa [handleCreateItem, hT] using hgood
      | arr xs => simpa [handleCreateItem, hT] using hgood
      | obj => simpa [handleCreateItem, hT] using hgood
      | str s =>
        by_cases hm : jsToLower s ∈ validSizes
        · cases hpb : priceBad pp with
          | true => simpa [handleCreateItem, hT, hm, hpb] using hgood
          | false =>
            have hres : (handleCreateItem uuid items
                (.parsed ⟨pn, pp, some (.str s)⟩)).2 =
                items ++ [⟨uuid, pn.getD .null, parseFloatVal (pp.getD .null),
                  jsToLower s⟩] := by
              simp [handleCreateItem, hT, hm, hpb]
            rw [hres]
            intro it hit
            rcases List.mem_append.mp hit with hin | hnew
            · exact hgood it hin
            · rw [List.mem_singleton.mp hnew]
              refine ⟨huuid, ?_, hm⟩
              obtain ⟨pv, hpv, _⟩ := optTruthy_some _ hpp
              rw [hpv] at hpb
              obtain ⟨q, hq⟩ := priceBad_false pv hpb
              exact ⟨q, by rw [hpv]; exact hq⟩
        · simpa [handleCreateItem, hT, hm] using hgood

/-- The persist step of update keeps the invariant when the new size is
in the enumeration. -/
theorem updFinish_good (items : List Item) (idx : ℕ) (old : Item) (p : Payload)
    (newSize : String) (hgood : ∀ it ∈ items, goodItem it)
    (hold : goodItem old) (hsize : newSize ∈ validSizes) :
    ∀ it ∈ (updFinish items idx old p newSize).2, goodItem it := by
  cases hpb : priceBad p.price with
  | true => simpa [updFinish, hpb] using hgood
  | false =>
    intro it hit
    simp only [updFinish, hpb, Bool.false_eq_true, if_false] at hit
    rcases List.mem_or_eq_of_mem_set hit with hin | heq
    · exact hgood it hin
    · subst heq
      refine ⟨hold.1, ?_, hsize⟩
      cases hppv : p.price with
      | none => simpa using hold.2.1
      | some pv =>
        rw [hppv] at hpb
        obtain ⟨q, hq⟩ := priceBad_false pv hpb
        exact ⟨q, hq⟩

/-- Update keeps the invariant on every branch. -/
theorem handleUpdateItem_good (items : List Item) (itemId : String) (body : Body)
    (hgood : ∀ it ∈ items, goodItem it) :
    ∀ it ∈ (handleUpdateItem items itemId body).2, goodItem it := by
  cases body with
  | malformed => simpa [handleUpdateItem] using hgood
  | parsedNull =>
    cases hfi : items.findIdx? (fun i => i.id == itemId) <;>
      simpa [handleUpdateItem, hfi] using hgood
  | parsed p =>
    cases hfi : items.findIdx? (fun i => i.id == itemId) with
    | none => simpa [handleUpdateItem, hfi] using hgood
    | some idx =>
      cases hge : items[idx]? with
      | none => simpa [handleUpdateItem, hfi, hge] using hgood
      | some old =>
        have hold : goodItem old := hgood old (List.getElem?_mem hge)
        obtain ⟨pn, pp, ps⟩ := p
        rcases ps with _ | v
        · intro it hit
          simp only [handleUpdateItem, hfi, hge] at hit
          exact updFinish_good _ _ _ _ _ hgood hold hold.2.2 it hit
        · cases v with
          | str s =>
            by_cases hm : jsToLower s ∈ validSizes
            · intro it hit
              simp only [handleUpdateItem, hfi, hge, if_pos hm] at hit
              exact updFinish_good _ _ _ _ _ hgood hold hm it hit
            · simpa [handleUpdateItem, hfi, hge, hm] using hgood
          | null => simpa [handleUpdateItem, hfi, hge] using hgood
          | bool bb => simpa [handleUpdateItem, hfi, hge] using hgood
          | num n => simpa [handleUpdateItem, hfi, hge] using hgood
          | arr xs => simpa [handleUpdateItem, hfi, hge] using hgood
          | obj => simpa [handleUpdateItem, hfi, hge] using hgood

/-- Delete keeps the invariant: the result is a sublist. -/
theorem handleDeleteItem_good (items : List Item) (itemId : String)
    (hgood : ∀ it ∈ items, goodItem it) :
    ∀ it ∈ (handleDeleteItem items itemId).2, goodItem it := by
  intro it hit
  simp only [handleDeleteItem] at hit
  split at hit
  · exact hgood it (List.mem_of_mem_filter hit)
  · exact hgood it hit

/-- One operation keeps the invariant when its uuid is non-empty. -/
theorem applyOp_good (uuid : String) (items : List Item) (op : Op)
    (hgood : ∀ it ∈ items, goodItem it) (huuid : uuid ≠ "") :
    ∀ it ∈ (applyOp uuid items op).2, goodItem it := by
  cases op with
  | createOp b => exact handleCreateItem_good _ _ _ hgood huuid
  | updateOp i b => exact handleUpdateItem_good _ _ _ hgood
  | deleteOp i => exact handleDeleteItem_good _ _ hgood

/-- Any operation sequence keeps the invariant. -/
theorem runOps_good (gen : ℕ → String) (hgen : ∀ n, gen n ≠ "") :
    ∀ (ops : List Op) (n : ℕ) (items : List Item),
      (∀ it ∈ items, goodItem it) →
      ∀ it ∈ runOps gen n items ops, goodItem it := by
  intro ops
  induction ops with
  | nil =>
    intro n items h
    simpa [runOps] using h
  | cons op rest ih =>
    intro n items h
    simp only [runOps]
    exact ih (n + 1) _ (applyOp_good _ _ _ h (hgen n))

/-! ### Claim C1: persisted-document invariant -/

/-- C1 counterexample: the claim fails as stated, because create never
checks the sign of the price.  A create with price -1 and otherwise valid
fields is accepted and persists an item with a negative price. -/
theorem C1_invariant_counterexample : ¬ claimC1 := by
  intro h
  have hmem : (⟨"id0", .str "X", .fin (-1), "m"⟩ : Item) ∈
      runOps (fun _ => "id0") 0 []
        [.createOp (.parsed ⟨some (.str "X"), some (.num (.fin (-1))),
          some (.str "m")⟩)] := by
    rw [show runOps (fun _ => "id0") 0 []
          [.createOp (.parsed ⟨some (.str "X"), some (.num (.fin (-1))),
            some (.str "m")⟩)]
        = [⟨"id0", .str "X", .fin (-1), "m"⟩] from rfl]
    exact List.mem_singleton.mpr rfl
  obtain ⟨-, ⟨q, hq, hq0⟩, -⟩ :=
    h (fun _ => "id0") (fun n => by show ("id0" : String) ≠ ""; decide) _ _ hmem
  injection hq with hq2
  rw [← hq2] at hq0
  norm_num at hq0

/-- C1 (amended): after any sequence of create, update, and delete
operations starting from an empty collection, every persisted item has a
non-empty id (granted non-empty generated uuids), a finite numeric price,
and a size in the enumeration {s, m, l}.  Non-negativity of the price is
not maintained by the code — only finiteness is. -/
theorem C1_invariant_amended (gen : ℕ → String) (hgen : ∀ n, gen n ≠ "")
    (ops : List Op) : ∀ it ∈ runOps gen 0 [] ops, goodItem it :=
  runOps_good gen hgen ops 0 [] (by intro it hit; cases hit)

/-- Witness for the amended C1 theorem on a concrete one-create run. -/
theorem C1_invariant_witness : goodItem ⟨"id0", .str "X", .fin 5, "m"⟩ := by
  have hmem : (⟨"id0", .str "X", .fin 5, "m"⟩ : Item) ∈
      runOps (fun _ => "id0") 0 []
        [.createOp (.parsed ⟨some (.str "X"), some (.num (.fin 5)),
          some (.str "m")⟩)] := by
    rw [show runOps (fun _ => "id0") 0 []
          [.createOp (.parsed ⟨some (.str "X"), some (.num (.fin 5)),
            some (.str "m")⟩)]
        = [⟨"id0", .str "X", .fin 5, "m"⟩] from rfl]
    exact List.mem_singleton.mpr rfl
  exact C1_invariant_amended (fun _ => "id0")
    (fun n => by show ("id0" : String) ≠ ""; decide) _ _ hmem

/-! ### Claim C2: create acceptance -/

/-- A size passing the create enum check is a string lowercasing into the
enumeration. -/
theorem sizeEnumOk_true (o : Option JsValue) (h : sizeEnumOk o = true) :
    ∃ s, o = some (.str s) ∧ jsToLower s ∈ validSizes := by
  cases o with
  | none => simp [sizeEnumOk] at h
  | some v =>
    cases v with
    | str s => exact ⟨s, rfl, by simpa [sizeEnumOk] using h⟩
    | null => simp [sizeEnumOk] at h
    | bool bb => simp [sizeEnumOk] at h
    | num n => simp [sizeEnumOk] at h
    | arr xs => simp [sizeEnumOk] at h
    | obj => simp [sizeEnumOk] at h

/-- On acceptance, create responds 201 with the normalized item and
appends it to the persisted collection. -/
theorem create_success (uuid : String) (items : List Item) (p : Payload)
    (hacc : createAccept p = true) :
    handleCreateItem uuid items (.parsed p) =
      (⟨201, true, "Item created successfully.", .one (mkCreated uuid p)⟩,
        items ++ [mkCreated uuid p]) := by
  obtain ⟨pn, pp, ps⟩ := p
  simp only [createAccept, Bool.and_eq_true_iff] at hacc
  obtain ⟨⟨hT, hse⟩, hpb⟩ := hacc
  obtain ⟨s, hps, hm⟩ := sizeEnumOk_true _ hse
  have hpb' : priceBad pp = false := by simpa using hpb
  subst hps
  simp [handleCreateItem, hT, hm, hpb', mkCreated, sizeLit]

/-- C2 (amended): create returns 201 exactly when all three properties
are truthy (so price 0 and empty-string name are rejected as missing),
the size is a string lowercasing into the enumeration, and the price
passes the `parseFloat`/`isFinite` check — which accepts negative
prices.  On acceptance the normalized item is appended and returned. -/
theorem C2_create_amended (uuid : String) (items : List Item) (p : Payload) :
    ((handleCreateItem uuid items (.parsed p)).1.status = 201 ↔
      createAccept p = true) ∧
    (createAccept p = true →
      handleCreateItem uuid items (.parsed p) =
        (⟨201, true, "Item created successfully.", .one (mkCreated uuid p)⟩,
          items ++ [mkCreated uuid p])) := by
  refine ⟨?_, create_success uuid items p⟩
  obtain ⟨pn, pp, ps⟩ := p
  cases hT : (optTruthy pn && optTruthy pp && optTruthy ps) with
  | false =>
    constructor
    · intro h; simp [handleCreateItem, hT] at h
    · intro hacc; exfalso; simp [createAccept, hT] at hacc
  | true =>
    obtain ⟨vs, hvs, htvs⟩ := optTruthy_some _ ((Bool.and_eq_true_iff.mp hT).2)
    subst hvs
    cases vs with
    | str s =>
      by_cases hm : jsToLower s ∈ validSizes
      · cases hpb : priceBad pp with
        | true =>
          constructor
          · intro h; simp [handleCreateItem, hT, hm, hpb] at h
          · intro hacc; exfalso; simp [createAccept, sizeEnumOk, hpb] at hacc
        | false =>
          constructor
          · intro _; simp [createAccept, sizeEnumOk, hT, hm, hpb]
          · intro _; simp [handleCreateItem, hT, hm, hpb]
      · constructor
        · intro h; simp [handleCreateItem, hT, hm] at h
        · intro hacc; exfalso; simp [createAccept, sizeEnumOk, hm] at hacc
    | null =>
      exact ⟨fun h => by simp [handleCreateItem, hT] at h,
        fun hacc => by simp [createAccept, sizeEnumOk] at hacc⟩
    | bool bb =>
      exact ⟨fun h => by simp [handleCreateItem, hT] at h,
        fun hacc => by simp [createAccept, sizeEnumOk] at hacc⟩
    | num n =>
      exact ⟨fun h => by simp [handleCreateItem, hT] at h,
        fun hacc => by simp [createAccept, sizeEnumOk] at hacc⟩
    | arr xs =>
      exact ⟨fun h => by simp [handleCreateItem, hT] at h,
        fun hacc => by simp [createAccept, sizeEnumOk] at hacc⟩
    | obj =>
      exact ⟨fun h => by simp [handleCreateItem, hT] at h,
        fun hacc => by simp [createAccept, sizeEnumOk] at hacc⟩

/-- C2 counterexample: the claim fails as stated.  The payload with name
X, price 0 and size m passes the spec validation rule (0 is a finite
non-negative number), yet the code rejects it with 400 because the number
0 is falsy and trips the missing-fields truthiness check. -/
theorem C2_create_counterexample : ¬ claimC2 := by
  intro h
  have h2 := (h ("u1") []
      ⟨some (.str "X"), some (.num (.fin 0)), some (.str "m")⟩).mpr
    ⟨(by decide : ("X" : String) ≠ ""), ⟨0, rfl, le_refl 0⟩,
      (by decide : jsToLower "m" ∈ validSizes)⟩
  exact absurd h2 (by decide)

/-- Witness for the amended C2 theorem: a valid payload with uppercase
size M is accepted, normalized, and appended. -/
theorem C2_create_witness :
    handleCreateItem ("u1") []
        (.parsed ⟨some (.str "X"), some (.num (.fin 2)), some (.str "M")⟩) =
      (⟨201, true, "Item created successfully.",
          .one (mkCreated ("u1")
            ⟨some (.str "X"), some (.num (.fin 2)), some (.str "M")⟩)⟩,
        [] ++ [mkCreated ("u1")
          ⟨some (.str "X"), some (.num (.fin 2)), some (.str "M")⟩]) :=
  (C2_create_amended ("u1") [] _).2 (by decide)

/-! ### Claim C3: update validation -/

/-- C3 counterexample: the claim fails as stated.  Updating an existing
item with the payload whose name is the empty string is not rejected: the
handler never validates the name, responds 200 and persists the empty
name. -/
theorem C3_update_counterexample : ¬ claimC3 := by
  intro h
  have h2 := h [⟨"a1", .str "A", .fin 1, "s"⟩] ("a1")
      ⟨some (.str ""), none, none⟩
      ⟨⟨"a1", .str "A", .fin 1, "s"⟩, List.mem_singleton.mpr rfl, rfl⟩ rfl
  exact absurd h2 (by decide)

/-- C3 (amended): update validates price and size, when provided, with
the create rules (size a string lowercasing into the enum; price passing
the `parseFloat`/`isFinite` check), retains absent fields, but does NOT
validate the name: any provided name value — the empty string included —
replaces the stored one.  Update succeeds (200) exactly when the provided
size and price pass, and then persists the merged item in place. -/
theorem C3_update_amended (items : List Item) (itemId : String) (p : Payload)
    (idx : ℕ) (old : Item)
    (hfi : items.findIdx? (fun i => i.id == itemId) = some idx)
    (hge : items[idx]? = some old) :
    ((handleUpdateItem items itemId (.parsed p)).1.status = 200 ↔
      (updSizeOk p.size && !priceBad p.price) = true) ∧
    ((updSizeOk p.size && !priceBad p.price) = true →
      (handleUpdateItem items itemId (.parsed p)).2 =
        items.set idx (mergedItem old p)) := by
  obtain ⟨pn, pp, ps⟩ := p
  rcases ps with _ | v
  · cases hpb : priceBad pp with
    | true =>
      constructor
      · constructor
        · intro h
          simp [handleUpdateItem, hfi, hge, updFinish, hpb] at h
        · intro h; simp [updSizeOk, hpb] at h
      · intro h; simp [updSizeOk, hpb] at h
    | false =>
      constructor
      · constructor
        · intro _; simp [updSizeOk, hpb]
        · intro _; simp [handleUpdateItem, hfi, hge, updFinish, hpb]
      · intro _
        simp [handleUpdateItem, hfi, hge, updFinish, hpb, mergedItem]
  · cases v with
    | str s =>
      by_cases hm : jsToLower s ∈ validSizes
      · cases hpb : priceBad pp with
        | true =>
          constructor
          · constructor
            · intro h
              simp [handleUpdateItem, hfi, hge, hm, updFinish, hpb] at h
            · intro h; simp [updSizeOk, hpb] at h
          · intro h; simp [updSizeOk, hpb] at h
        | false =>
          constructor
          · constructor
            · intro _; simp [updSizeOk, hm, hpb]
            · intro _; simp [handleUpdateItem, hfi, hge, hm, updFinish, hpb]
          · intro _
            simp [handleUpdateItem, hfi, hge, hm, updFinish, hpb, mergedItem]
      · constructor
        · constructor
          · intro h; simp [handleUpdateItem, hfi, hge, hm] at h
          · intro h; simp [updSizeOk, hm] at h
        · intro h; simp [updSizeOk, hm] at h
    | null =>
      constructor
      · constructor
        · intro h; simp [handleUpdateItem, hfi, hge] at h
        · intro h; simp [updSizeOk] at h
      · intro h; simp [updSizeOk] at h
    | bool bb =>
      constructor
      · constructor
        · intro h; simp [handleUpdateItem, hfi, hge] at h
        · intro h; simp [updSizeOk] at h
      · intro h; simp [updSizeOk] at h
    | num n =>
      constructor
      · constructor
        · intro h; simp [handleUpdateItem, hfi, hge] at h
        · intro h; simp [updSizeOk] at h
      · intro h; simp [updSizeOk] at h
    | arr xs =>
      constructor
      · constructor
        · intro h; simp [handleUpdateItem, hfi, hge] at h
        · intro h; simp [updSizeOk] at h
      · intro h; simp [updSizeOk] at h
    | obj =>
      constructor
      · constructor
        · intro h; simp [handleUpdateItem, hfi, hge] at h
        · intro h; simp [updSizeOk] at h
      · intro h; simp [updSizeOk] at h

/-- Witness for the amended C3 theorem: the empty-string-name update is
accepted and persists the merged item (with the empty name). -/
theorem C3_update_witness :
    (handleUpdateItem [⟨"a1", .str "A", .fin 1, "s"⟩] ("a1")
        (.parsed ⟨some (.str ""), none, none⟩)).2 =
      ([⟨"a1", .str "A", .fin 1, "s"⟩] : List Item).set 0
        (mergedItem ⟨"a1", .str "A", .fin 1, "s"⟩
          ⟨some (.str ""), none, none⟩) :=
  (C3_update_amended [⟨"a1", .str "A", .fin 1, "s"⟩] ("a1")
    ⟨some (.str ""), none, none⟩ 0 ⟨"a1", .str "A", .fin 1, "s"⟩
    (by decide) rfl).2 (by decide)

/-! ### Claim C4: out-of-enum size errors -/

/-- C4 counterexample: the claim fails as stated.  A create payload whose
size is the number 5 (a wrong-type value, hence outside the enumeration)
does not get a 400: `.toLowerCase()` throws a TypeError and the catch
block responds 500. -/
theorem C4_size_counterexample : ¬ claimC4 := by
  intro h
  have h2 := h ("u1") []
      ⟨some (.str "X"), some (.num (.fin 1)), some (.num (.fin 5))⟩
      (.num (.fin 5)) rfl trivial
  exact absurd h2 (by decide)

/-- C4 (amended): a size that is a string outside the enumeration is
rejected with 400 and the message echoes the offending value (on create
this needs the other fields truthy and the string non-empty, since an
empty string trips the earlier missing-fields check; on update it needs
the id to exist); but a truthy non-string size is not handled by the
validation: `.toLowerCase()` throws, and the caught TypeError produces a
500 response (with the store unchanged). -/
theorem C4_size_amended (uuid : String) (items : List Item) (itemId : String)
    (p : Payload) :
    (∀ s, p.size = some (.str s) → jsToLower s ∉ validSizes →
      optTruthy p.name = true → optTruthy p.price = true → s ≠ "" →
      handleCreateItem uuid items (.parsed p) =
        (⟨400, false, invalidSizeMsg s, .nullData⟩, items)) ∧
    (∀ v, p.size = some v → truthy v = true → (∀ s, v ≠ .str s) →
      optTruthy p.name = true → optTruthy p.price = true →
      (handleCreateItem uuid items (.parsed p)).1.status = 500 ∧
      (handleCreateItem uuid items (.parsed p)).2 = items) ∧
    (∀ s idx old, p.size = some (.str s) → jsToLower s ∉ validSizes →
      items.findIdx? (fun i => i.id == itemId) = some idx →
      items[idx]? = some old →
      handleUpdateItem items itemId (.parsed p) =
        (⟨400, false, invalidSizeMsg s, .nullData⟩, items)) ∧
    (∀ v idx old, p.size = some v → (∀ s, v ≠ .str s) →
      items.findIdx? (fun i => i.id == itemId) = some idx →
      items[idx]? = some old →
      (handleUpdateItem items itemId (.parsed p)).1.status = 500 ∧
      (handleUpdateItem items itemId (.parsed p)).2 = items) := by
  obtain ⟨pn, pp, ps⟩ := p
  refine ⟨?_, ?_, ?_, ?_⟩
  · intro s hps hm hn hp hs
    subst hps
    simp only [optTruthy] at hn hp
    have hts : truthy (.str s) = true := by simp [truthy, hs]
    simp [handleCreateItem, optTruthy, hn, hp, hts, hm]
  · intro v hps htv hns hn hp
    subst hps
    simp only [optTruthy] at hn hp
    cases v with
    | str s => exact absurd rfl (hns s)
    | null => simp [truthy] at htv
    | bool bb =>
      constructor <;> simp [handleCreateItem, optTruthy, hn, hp, htv]
    | num n =>
      constructor <;> simp [handleCreateItem, optTruthy, hn, hp, htv]
    | arr xs =>
      constructor <;> simp [handleCreateItem, optTruthy, hn, hp, htv]
    | obj =>
      constructor <;> simp [handleCreateItem, optTruthy, hn, hp, htv]
  · intro s idx old hps hm hfi hge
    subst hps
    simp [handleUpdateItem, hfi, hge, hm]
  · intro v idx old hps hns hfi hge
    subst hps
    cases v with
    | str s => exact absurd rfl (hns s)
    | null => constructor <;> simp [handleUpdateItem, hfi, hge]
    | bool bb => constructor <;> simp [handleUpdateItem, hfi, hge]
    | num n => constructor <;> simp [handleUpdateItem, hfi, hge]
    | arr xs => constructor <;> simp [handleUpdateItem, hfi, hge]
    | obj => constructor <;> simp [handleUpdateItem, hfi, hge]

/-- Witness for the amended C4 theorem: size xl is echoed in a 400. -/
theorem C4_size_witness :
    handleCreateItem ("u1") []
        (.parsed ⟨some (.str "X"), some (.num (.fin 1)), some (.str "xl")⟩) =
      (⟨400, false, invalidSizeMsg "xl", .nullData⟩, []) :=
  (C4_size_amended ("u1") [] ("unused")
      ⟨some (.str "X"), some (.num (.fin 1)), some (.str "xl")⟩).1
    "xl" rfl (by decide) (by decide) (by decide) (by decide)

/-! ### Claim C5: create/get round-trip -/

/-- C5 (confirmed): creating a valid payload and fetching the returned id
yields the same item: name preserved, price the parsed number, size the
lowercased string, id the non-empty fresh uuid.  The freshness hypothesis
reflects the spec treating uuid collisions as impossible. -/
theorem C5_roundtrip (uuid : String) (items : List Item) (p : Payload)
    (hacc : createAccept p = true) (huuid : uuid ≠ "")
    (hfresh : ∀ it ∈ items, it.id ≠ uuid) :
    (handleCreateItem uuid items (.parsed p)).1 =
      ⟨201, true, "Item created successfully.", .one (mkCreated uuid p)⟩ ∧
    (mkCreated uuid p).id = uuid ∧ uuid ≠ "" ∧
    (mkCreated uuid p).name = p.name.getD .null ∧
    (mkCreated uuid p).price = parseFloatVal (p.price.getD .null) ∧
    (mkCreated uuid p).size = jsToLower (sizeLit p.size) ∧
    handleGetOneItem (handleCreateItem uuid items (.parsed p)).2 uuid =
      ⟨200, true, "Successfully retrieved item.", .one (mkCreated uuid p)⟩ := by
  have hres := create_success uuid items p hacc
  refine ⟨by rw [hres], rfl, huuid, rfl, rfl, rfl, ?_⟩
  have hnone : items.find? (fun i => i.id == uuid) = none :=
    List.find?_eq_none.mpr (fun it hit => by simp [hfresh it hit])
  have hone : List.find? (fun i => i.id == uuid) [mkCreated uuid p] =
      some (mkCreated uuid p) := by simp [List.find?, mkCreated]
  simp only [hres]
  simp [handleGetOneItem, List.find?_append, hnone, hone]

/-- Witness for C5 on a concrete payload with uppercase size. -/
theorem C5_roundtrip_witness :
    handleGetOneItem (handleCreateItem ("u9") []
        (.parsed ⟨some (.str "W"), some (.num (.fin 3)),
          some (.str "L")⟩)).2 ("u9") =
      ⟨200, true, "Successfully retrieved item.",
        .one (mkCreated ("u9")
          ⟨some (.str "W"), some (.num (.fin 3)), some (.str "L")⟩)⟩ :=
  (C5_roundtrip ("u9") []
    ⟨some (.str "W"), some (.num (.fin 3)), some (.str "L")⟩
    (by decide) (by decide) (fun it hit => nomatch hit)).2.2.2.2.2.2

/-! ### Claim C6: update frame property -/

/-- C6 (confirmed): whatever the update body, the collection keeps its
length, every position other than the first index matching the id is
untouched, and the item at that index keeps its id and every field the
payload omits. -/
theorem C6_update_frame (items : List Item) (itemId : String) (body : Body)
    (idx : ℕ) (old : Item)
    (hfi : items.findIdx? (fun i => i.id == itemId) = some idx)
    (hge : items[idx]? = some old) :
    (handleUpdateItem items itemId body).2.length = items.length ∧
    (∀ j, j ≠ idx → (handleUpdateItem items itemId body).2[j]? = items[j]?) ∧
    ∃ new, (handleUpdateItem items itemId body).2[idx]? = some new ∧
      new.id = old.id ∧
      (bodyName body = none → new.name = old.name) ∧
      (bodyPrice body = none → new.price = old.price) ∧
      (bodySize body = none → new.size = old.size) := by
  have hlt : idx < items.length := by
    by_contra hnlt
    rw [List.getElem?_eq_none_iff.mpr (Nat.le_of_not_lt hnlt)] at hge
    exact Option.noConfusion hge
  have base : ∀ res : Response × List Item, res.2 = items →
      res.2.length = items.length ∧
      (∀ j, j ≠ idx → res.2[j]? = items[j]?) ∧
      ∃ new, res.2[idx]? = some new ∧ new.id = old.id ∧
        (bodyName body = none → new.name = old.name) ∧
        (bodyPrice body = none → new.price = old.price) ∧
        (bodySize body = none → new.size = old.size) := by
    intro res hres
    rw [hres]
    exact ⟨rfl, fun j _ => rfl,
      old, hge, rfl, fun _ => rfl, fun _ => rfl, fun _ => rfl⟩
  have setcase : ∀ pn pp psz, body = .parsed ⟨pn, pp, psz⟩ →
      ∀ newSize, (psz = none → newSize = old.size) →
      (handleUpdateItem items itemId body).2 =
        items.set idx ⟨old.id, pn.getD old.name,
          (match pp with
           | some pv => parseFloatVal pv
           | none => old.price), newSize⟩ →
      (handleUpdateItem items itemId body).2.length = items.length ∧
      (∀ j, j ≠ idx → (handleUpdateItem items itemId body).2[j]? = items[j]?) ∧
      ∃ new, (handleUpdateItem items itemId body).2[idx]? = some new ∧
        new.id = old.id ∧
        (bodyName body = none → new.name = old.name) ∧
        (bodyPrice body = none → new.price = old.price) ∧
        (bodySize body = none → new.size = old.size) := by
    intro pn pp psz hbody newSize hsz hres
    subst hbody
    rw [hres]
    refine ⟨by simp, fun j hj => List.getElem?_set_ne (fun h => hj h.symm), ?_⟩
    refine ⟨_, List.getElem?_set_eq_of_lt _ hlt, rfl, ?_, ?_, ?_⟩
    · intro h
      simp only [bodyName] at h
      rw [h]
      rfl
    · intro h
      simp only [bodyPrice] at h
      rw [h]
    · intro h
      simp only [bodySize] at h
      exact hsz h
  cases body with
  | malformed => exact base _ (by simp [handleUpdateItem])
  | parsedNull =>
    exact base _ (by simp [handleUpdateItem, hfi])
  | parsed p =>
    obtain ⟨pn, pp, psz⟩ := p
    rcases psz with _ | v
    · cases hpb : priceBad pp with
      | true =>
        exact base _ (by simp [handleUpdateItem, hfi, hge, updFinish, hpb])
      | false =>
        exact setcase pn pp none rfl old.size (fun _ => rfl)
          (by simp [handleUpdateItem, hfi, hge, updFinish, hpb])
    · cases v with
      | str s =>
        by_cases hm : jsToLower s ∈ validSizes
        · cases hpb : priceBad pp with
          | true =>
            exact base _
              (by simp [handleUpdateItem, hfi, hge, hm, updFinish, hpb])
          | false =>
            exact setcase pn pp (some (.str s)) rfl (jsToLower s)
              (fun h => Option.noConfusion h)
              (by simp [handleUpdateItem, hfi, hge, hm, updFinish, hpb])
        · exact base _ (by simp [handleUpdateItem, hfi, hge, hm])
      | null => exact base _ (by simp [handleUpdateItem, hfi, hge])
      | bool bb => exact base _ (by simp [handleUpdateItem, hfi, hge])
      | num n => exact base _ (by simp [handleUpdateItem, hfi, hge])
      | arr xs => exact base _ (by simp [handleUpdateItem, hfi, hge])
      | obj => exact base _ (by simp [handleUpdateItem, hfi, hge])

/-- Witness for C6: updating only the price keeps the length. -/
theorem C6_update_frame_witness :
    (handleUpdateItem [⟨"a1", .str "A", .fin 1, "s"⟩] ("a1")
        (.parsed ⟨none, some (.num (.fin 2)), none⟩)).2.length =
      ([⟨"a1", .str "A", .fin 1, "s"⟩] : List Item).length :=
  (C6_update_frame [⟨"a1", .str "A", .fin 1, "s"⟩] ("a1")
    (.parsed ⟨none, some (.num (.fin 2)), none⟩) 0
    ⟨"a1", .str "A", .fin 1, "s"⟩ (by decide) rfl).1

/-! ### Claim C7: deletion finality -/

/-- C7 (confirmed): deleting a present id responds 200 with null data and
removes every item with that id, so the following get-one responds 404;
deleting an absent id responds 404 and leaves the collection unchanged. -/
theorem C7_delete_finality (items : List Item) (itemId : String) :
    ((∃ it ∈ items, it.id = itemId) →
      (handleDeleteItem items itemId).1 =
        ⟨200, true, "Item deleted successfully.", .nullData⟩ ∧
      (∀ it ∈ (handleDeleteItem items itemId).2, it.id ≠ itemId) ∧
      (handleGetOneItem (handleDeleteItem items itemId).2 itemId).status
        = 404) ∧
    ((∀ it ∈ items, it.id ≠ itemId) →
      (handleDeleteItem items itemId).1 =
        ⟨404, false, notFoundMsg itemId, .nullData⟩ ∧
      (handleDeleteItem items itemId).2 = items) := by
  constructor
  · rintro ⟨it0, hmem, hid⟩
    have hlt : (items.filter (fun i => !(i.id == itemId))).length <
        items.length := by
      apply List.length_filter_lt_length_iff_exists.mpr
      exact ⟨it0, hmem, by simp [hid]⟩
    have h1 : handleDeleteItem items itemId =
        (⟨200, true, "Item deleted successfully.", .nullData⟩,
          items.filter (fun i => !(i.id == itemId))) := by
      simp [handleDeleteItem, hlt]
    have hmemf : ∀ it ∈ (handleDeleteItem items itemId).2, it.id ≠ itemId := by
      intro it hit
      rw [h1] at hit
      have := (List.mem_filter.mp hit).2
      simpa using this
    refine ⟨by rw [h1], hmemf, ?_⟩
    have hnone : (handleDeleteItem items itemId).2.find?
        (fun i => i.id == itemId) = none := by
      apply List.find?_eq_none.mpr
      intro it hit
      simpa using hmemf it hit
    simp [handleGetOneItem, hnone]
  · intro hall
    have hfe : items.filter (fun i => !(i.id == itemId)) = items := by
      apply List.filter_eq_self.mpr
      intro it hit
      simpa using hall it hit
    constructor <;> simp [handleDeleteItem, hfe]

/-- Witness for C7: deleting the only item makes its get-one a 404. -/
theorem C7_delete_witness :
    (handleGetOneItem
      (handleDeleteItem [⟨"a1", .str "A", .fin 1, "s"⟩] ("a1")).2
      ("a1")).status = 404 :=
  ((C7_delete_finality [⟨"a1", .str "A", .fin 1, "s"⟩] ("a1")).1
    ⟨⟨"a1", .str "A", .fin 1, "s"⟩, List.mem_singleton.mpr rfl, rfl⟩).2.2

/-! ### Claim C8: store load behaviour -/

/-- C8 counterexample: the claim fails as stated.  A document holding the
JSON text for an empty object is present and not parseable as a JSON
array, yet `readItems` returns the parsed object as-is instead of an
empty collection (`JSON.parse` succeeds, so the catch branch never
runs). -/
theorem C8_load_counterexample : ¬ claimC8 := by
  intro h
  have h2 := h (.validJson (.obj []))
    (by simp [parseableAsArray, isJsonArray])
  rw [show (readItems (.withContent (.validJson (.obj [])))).1 = .obj []
    from rfl] at h2
  exact Json.noConfusion h2

/-- C8 (amended): `readItems` is total — no branch raises — and behaves
case by case: an absent file is created holding the empty array and the
empty collection is returned; empty text and text on which `JSON.parse`
throws degrade to the empty collection; but any successfully parsed JSON
document, array or not, is returned unchanged. -/
theorem C8_load_amended :
    readItems .absent = (.arr [], .withContent (.validJson (.arr []))) ∧
    readItems (.withContent .emptyContent) =
      (.arr [], .withContent .emptyContent) ∧
    readItems (.withContent .invalidJson) =
      (.arr [], .withContent .invalidJson) ∧
    ∀ j, readItems (.withContent (.validJson j)) =
      (j, .withContent (.validJson j)) :=
  ⟨rfl, rfl, rfl, fun _ => rfl⟩

/-! ### Claim C9: routing totality -/

/-- C9 counterexample: the claim fails as stated.  GET /items/a/b is
under /items and is none of the five recognized operations, but the
router only looks at the first two non-empty segments, dispatches it as a
get-one for id a, and (on the empty collection) responds 404, not 405. -/
theorem C9_routing_counterexample : ¬ claimC9 := by
  intro h
  have h2 := (h ("u") [] ⟨"GET", "/items/a/b", .malformed⟩).1
    (by decide) (by decide)
  exact absurd h2 (by decide)

/-- C9 (amended): the router inspects only the first two non-empty path
segments.  When the first segment is not items the response is the 404
envelope; when it is items but the method/second-segment shape is not one
the router handles (GET with or without id, POST without id, PUT or
DELETE with id) the response is the 405 envelope; in both cases the
collection is untouched.  Extra segments beyond the second are ignored,
so e.g. GET /items/a/b behaves as a get-one for id a. -/
theorem C9_routing_amended (uuid : String) (items : List Item)
    (req : Request) :
    ((urlParts req.url)[0]? ≠ some ("items") →
      apiServer uuid items req =
        (⟨404, false, "API Endpoint Not Found.", .nullData⟩, items)) ∧
    ((urlParts req.url)[0]? = some ("items") →
      ¬ shapeHandled req.method ((urlParts req.url)[1]?).isSome →
      apiServer uuid items req =
        (⟨405, false, "Method Not Allowed or Invalid API Endpoint.",
          .nullData⟩, items)) := by
  constructor
  · intro hbase
    simp [apiServer, hbase]
  · intro hbase hsh
    simp only [shapeHandled, not_or] at hsh
    obtain ⟨hG, hPOST, hPUT, hDEL⟩ := hsh
    rcases hio : (urlParts req.url)[1]? with _ | iid
    · have hp : ¬ req.method = "POST" :=
        fun hm => hPOST ⟨hm, by rw [hio]; rfl⟩
      simp [apiServer, hbase, hio, hG, hp]
    · have hpu : ¬ req.method = "PUT" :=
        fun hm => hPUT ⟨hm, by rw [hio]; rfl⟩
      have hde : ¬ req.method = "DELETE" :=
        fun hm => hDEL ⟨hm, by rw [hio]; rfl⟩
      simp [apiServer, hbase, hio, hG, hpu, hde]

/-- Witness for the amended C9 theorem: PATCH /items is refused 405. -/
theorem C9_routing_witness :
    apiServer ("u") [] ⟨"PATCH", "/items", .malformed⟩ =
      (⟨405, false, "Method Not Allowed or Invalid API Endpoint.",
        .nullData⟩, []) :=
  (C9_routing_amended ("u") [] ⟨"PATCH", "/items", .malformed⟩).2
    (by decide) (by simp [shapeHandled])

/-! ### Claim C10: validation-failure atomicity -/

/-- Create either leaves the collection unchanged or responds 201. -/
theorem create_unchanged_or_201 (uuid : String) (items : List Item)
    (body : Body) :
    (handleCreateItem uuid items body).2 = items ∨
    (handleCreateItem uuid items body).1.status = 201 := by
  cases body with
  | malformed => exact Or.inl rfl
  | parsedNull => exact Or.inl rfl
  | parsed p =>
    obtain ⟨pn, pp, ps⟩ := p
    cases hT : (optTruthy pn && optTruthy pp && optTruthy ps) with
    | false => exact Or.inl (by simp [handleCreateItem, hT])
    | true =>
      rcases ps with _ | v
      · exact Or.inl (by simp [handleCreateItem, hT])
      · cases v with
        | str s =>
          by_cases hm : jsToLower s ∈ validSizes
          · cases hpb : priceBad pp with
            | true => exact Or.inl (by simp [handleCreateItem, hT, hm, hpb])
            | false => exact Or.inr (by simp [handleCreateItem, hT, hm, hpb])
          · exact Or.inl (by simp [handleCreateItem, hT, hm])
        | null => exact Or.inl (by simp [handleCreateItem, hT])
        | bool bb => exact Or.inl (by simp [handleCreateItem, hT])
        | num n => exact Or.inl (by simp [handleCreateItem, hT])
        | arr xs => exact Or.inl (by simp [handleCreateItem, hT])
        | obj => exact Or.inl (by simp [handleCreateItem, hT])

/-- Update either leaves the collection unchanged or responds 200. -/
theorem update_unchanged_or_200 (items : List Item) (itemId : String)
    (body : Body) :
    (handleUpdateItem items itemId body).2 = items ∨
    (handleUpdateItem items itemId body).1.status = 200 := by
  cases body with
  | malformed => exact Or.inl rfl
  | parsedNull =>
    cases hfi : items.findIdx? (fun i => i.id == itemId) <;>
      exact Or.inl (by simp [handleUpdateItem, hfi])
  | parsed p =>
    cases hfi : items.findIdx? (fun i => i.id == itemId) with
    | none => exact Or.inl (by simp [handleUpdateItem, hfi])
    | some idx =>
      cases hge : items[idx]? with
      | none => exact Or.inl (by simp [handleUpdateItem, hfi, hge])
      | some old =>
        obtain ⟨pn, pp, ps⟩ := p
        rcases ps with _ | v
        · cases hpb : priceBad pp with
          | true =>
            exact Or.inl (by simp [handleUpdateItem, hfi, hge, updFinish, hpb])
          | false =>
            exact Or.inr (by simp [handleUpdateItem, hfi, hge, updFinish, hpb])
        · cases v with
          | str s =>
            by_cases hm : jsToLower s ∈ validSizes
            · cases hpb : priceBad pp with
              | true =>
                exact Or.inl
                  (by simp [handleUpdateItem, hfi, hge, hm, updFinish, hpb])
              | false =>
                exact Or.inr
                  (by simp [handleUpdateItem, hfi, hge, hm, updFinish, hpb])
            · exact Or.inl (by simp [handleUpdateItem, hfi, hge, hm])
          | null => exact Or.inl (by simp [handleUpdateItem, hfi, hge])
          | bool bb => exact Or.inl (by simp [handleUpdateItem, hfi, hge])
          | num n => exact Or.inl (by simp [handleUpdateItem, hfi, hge])
          | arr xs => exact Or.inl (by simp [handleUpdateItem, hfi, hge])
          | obj => exact Or.inl (by simp [handleUpdateItem, hfi, hge])

/-- C10 (confirmed): whenever create or update responds 400, no write to
the persisted collection happens — the stored collection after the
request is exactly the one before it. -/
theorem C10_validation_atomic (uuid : String) (items : List Item)
    (body : Body) (itemId : String) :
    ((handleCreateItem uuid items body).1.status = 400 →
      (handleCreateItem uuid items body).2 = items) ∧
    ((handleUpdateItem items itemId body).1.status = 400 →
      (handleUpdateItem items itemId body).2 = items) := by
  constructor
  · intro h
    rcases create_unchanged_or_201 uuid items body with hu | hs
    · exact hu
    · rw [h] at hs
      exact absurd hs (by decide)
  · intro h
    rcases update_unchanged_or_200 items itemId body with hu | hs
    · exact hu
    · rw [h] at hs
      exact absurd hs (by decide)

/-- Witness for C10: a malformed create body gives 400 and no write. -/
theorem C10_validation_witness :
    (handleCreateItem ("u") [] .malformed).2 = [] :=
  (C10_validation_atomic ("u") [] .malformed ("x")).1 (by decide)

end Spec2Proof
